import Mathlib

/-!
# Vencord Installer (enhanced edition): presentation layer and constants

A shallow embedding of `Installer-main/gui.go` and of the name table of
`Installer-main/constants.go`.

* Go's `error` is `Option String`: `none` is `nil`, `some m` is an error whose
  `Error()` text is `m`.
* A Go function that may panic returns `Res α = Except Panic α`.
* The package variables of `gui.go` are the fields of `GuiState`.  Everything
  the functions declared in other files act on (the file system, the network)
  is the field `world`, of an arbitrary type `W`.
* The methods of `*DiscordInstall` and `installLatestBuilds` are declared in
  other files; they are the fields of `Core`, arbitrary functions on `W`.
* `go func() { ... }()` is run to completion right after the part of the
  handler that precedes it; interleavings of goroutines are not modelled.
-/

namespace Installer

/-! ## Data model -/

/-- Go `error`: `none` is `nil`, `some m` is an error with `Error() = m`. -/
abbrev GoError := Option String

/-- The run-time panics the presentation layer can raise. -/
inductive Panic where
  /-- a failed type assertion `x.(*DiscordInstall)` -/
  | interfaceConversion
  /-- a field read through a nil pointer -/
  | nilDereference
  /-- an index outside a slice -/
  | indexOutOfRange
  /-- a panic raised inside a function declared in another file -/
  | inCore (msg : String)
  deriving DecidableEq, Repr

/-- Result of a Go call that either returns or panics. -/
abbrev Res (α : Type) := Except Panic α

/-- Modelled from the spec: the struct `DiscordInstall` is declared in another
file; these are the fields `gui.go` reads, the root path and the branch of the
Installation record, both printed as strings. -/
structure DiscordInstall where
  path : String
  branch : String
  deriving DecidableEq, Repr

/-- A value of Go's `any`, as far as `x.(*DiscordInstall)` can tell values apart. -/
inductive GoAny where
  /-- the nil interface value -/
  | nilInterface
  /-- a `*DiscordInstall`; `none` is the nil pointer of that type -/
  | installPtr (p : Option DiscordInstall)
  /-- a value of any other dynamic type, named by its type -/
  | other (dynType : String)
  deriving DecidableEq, Repr

/-- Calls that leave `gui.go`, in the order they are made. -/
inductive Event where
  | unpatch (p : Option DiscordInstall)
  | isOpenAsar (p : Option DiscordInstall)
  | installOpenAsar (p : Option DiscordInstall)
  | uninstallOpenAsar (p : Option DiscordInstall)
  | installLatestBuilds
  deriving DecidableEq, Repr

/-- The package variables of `gui.go` (`discords`, `customDir`, `errorMessage`,
`infoMessage`), the popups opened through `g.OpenPopup`, the environment the
other files act on, and the trace of calls made into them. -/
structure GuiState (W : Type) where
  discords : List GoAny
  customDir : String
  errorMessage : String
  infoMessage : String
  popups : List String
  world : W
  trace : List Event

/-- The functions `gui.go` calls that are declared in other files: the methods
`unpatch`, `IsOpenAsar`, `InstallOpenAsar`, `UninstallOpenAsar` of
`*DiscordInstall` (the receiver may be the nil pointer) and
`installLatestBuilds`. -/
structure Core (W : Type) where
  unpatch : Option DiscordInstall → W → Res (GoError × W)
  IsOpenAsar : Option DiscordInstall → W → Res (Bool × W)
  InstallOpenAsar : Option DiscordInstall → W → Res (GoError × W)
  UninstallOpenAsar : Option DiscordInstall → W → Res (GoError × W)
  installLatestBuilds : W → Res (GoError × W)

variable {W : Type}

/-! ## gui.go: helper functions -/

/-- The type assertion `x.(*DiscordInstall)` in its one-result form. -/
def assertDiscordInstall : GoAny → Res (Option DiscordInstall)
  | GoAny.installPtr p => Except.ok p
  | _ => Except.error Panic.interfaceConversion

/-- The index expression `xs[i]` on a slice. -/
def index (xs : List GoAny) (i : Nat) : Res GoAny :=
  match xs.get? i with
  | some x => Except.ok x
  | none => Except.error Panic.indexOutOfRange

/-- The field read `p.f` through a pointer. -/
def deref (p : Option DiscordInstall) : Res DiscordInstall :=
  match p with
  | some d => Except.ok d
  | none => Except.error Panic.nilDereference

/-- The state after a call into another file: new environment, longer trace. -/
def GuiState.after (s : GuiState W) (ev : Event) (w : W) : GuiState W :=
  { s with world := w, trace := s.trace ++ [ev] }

/-- Code of `IsValidInstallLocation`. -/
def IsValidInstallLocation (s : GuiState W) : Bool :=
  decide (s.discords.length > 0)

/-- Code of `UninstallVencord`. -/
def UninstallVencord (core : Core W) (s : GuiState W) : Res (GoError × GuiState W) :=
  if s.discords.length = 0 then
    Except.ok (some "No Discord installation found", s)
  else do
    let x ← index s.discords 0
    let p ← assertDiscordInstall x
    let r ← core.unpatch p s.world
    pure (r.1, s.after (Event.unpatch p) r.2)

/-- Code of `IsOpenAsarInstalled`. -/
def IsOpenAsarInstalled (core : Core W) (s : GuiState W) : Res (Bool × GuiState W) :=
  if s.discords.length = 0 then
    Except.ok (false, s)
  else do
    let x ← index s.discords 0
    let p ← assertDiscordInstall x
    let r ← core.IsOpenAsar p s.world
    pure (r.1, s.after (Event.isOpenAsar p) r.2)

/-- Code of `InstallOpenAsar`. -/
def InstallOpenAsar (core : Core W) (s : GuiState W) : Res (GoError × GuiState W) :=
  if s.discords.length = 0 then
    Except.ok (some "No Discord installation found", s)
  else do
    let x ← index s.discords 0
    let p ← assertDiscordInstall x
    let r ← core.InstallOpenAsar p s.world
    pure (r.1, s.after (Event.installOpenAsar p) r.2)

/-- Code of `UninstallOpenAsar`. -/
def UninstallOpenAsar (core : Core W) (s : GuiState W) : Res (GoError × GuiState W) :=
  if s.discords.length = 0 then
    Except.ok (some "No Discord installation found", s)
  else do
    let x ← index s.discords 0
    let p ← assertDiscordInstall x
    let r ← core.UninstallOpenAsar p s.world
    pure (r.1, s.after (Event.uninstallOpenAsar p) r.2)

/-- Code of `showErrorModal`. -/
def showErrorModal (message : String) (s : GuiState W) : GuiState W :=
  { s with errorMessage := message, popups := s.popups ++ ["Error"] }

/-- Code of `showInfoModal`. -/
def showInfoModal (message : String) (s : GuiState W) : GuiState W :=
  { s with infoMessage := message, popups := s.popups ++ ["Info"] }

/-- The statement `if err != nil { showErrorModal(err.Error()) }` that ends
every goroutine of `renderEnhancedInstaller`. -/
def reportError (r : GoError × GuiState W) : GuiState W :=
  match r.1 with
  | some m => showErrorModal m r.2
  | none => r.2

/-! ## gui.go: the button handlers of `renderEnhancedInstaller` -/

/-- The `OnClick` function of the "Install" button. -/
def installClick (core : Core W) (s : GuiState W) : Res (GuiState W) :=
  if !IsValidInstallLocation s then
    Except.ok (showErrorModal "Invalid installation location" s)
  else do
    let r ← core.installLatestBuilds s.world
    pure (reportError (r.1, s.after Event.installLatestBuilds r.2))

/-- The `OnClick` function of the "Reinstall / Repair" button. -/
def repairClick (core : Core W) (s : GuiState W) : Res (GuiState W) :=
  if !IsValidInstallLocation s then
    Except.ok (showErrorModal "Invalid installation location" s)
  else do
    let r ← core.installLatestBuilds s.world
    pure (reportError (r.1, s.after Event.installLatestBuilds r.2))

/-- The `OnClick` function of the "Uninstall" button. -/
def uninstallClick (core : Core W) (s : GuiState W) : Res (GuiState W) :=
  if !IsValidInstallLocation s then
    Except.ok (showErrorModal "Invalid installation location" s)
  else do
    let r ← UninstallVencord core s
    pure (reportError r)

/-- The goroutine started by the OpenAsar button. -/
def openAsarGo (core : Core W) (s : GuiState W) : Res (GuiState W) := do
  let c ← IsOpenAsarInstalled core s
  let r ← if c.1 then UninstallOpenAsar core c.2 else InstallOpenAsar core c.2
  pure (reportError r)

/-- The `OnClick` function of the OpenAsar button. -/
def openAsarClick (core : Core W) (s : GuiState W) : Res (GuiState W) :=
  if !IsValidInstallLocation s then
    Except.ok (showErrorModal "Invalid installation location" s)
  else
    openAsarGo core s

/-- Modelled from the spec: the generic helper `Ternary(cond, ifTrue, ifFalse)`
is declared in a file other than `gui.go`; it is the conditional choice that
its use for the text of the OpenAsar toggle requires. -/
def Ternary {α : Type} (c : Bool) (ifTrue ifFalse : α) : α :=
  if c then ifTrue else ifFalse

/-- The text of the OpenAsar button,
`Ternary(IsOpenAsarInstalled(), "Uninstall OpenAsar", "Install OpenAsar")`. -/
def openAsarLabel (core : Core W) (s : GuiState W) : Res (String × GuiState W) := do
  let c ← IsOpenAsarInstalled core s
  pure (Ternary c.1 "Uninstall OpenAsar" "Install OpenAsar", c.2)

/-! ## gui.go: `renderDiscordInstallations` -/

/-- One `g.Row(g.RadioButton(text, active), g.Label(label))`. -/
structure RowWidget where
  radioText : String
  radioActive : Bool
  labelText : String
  deriving DecidableEq, Repr

/-- The `OnChange` function of every radio button. -/
def radioOnChange (s : GuiState W) : GuiState W :=
  { s with customDir := "" }

/-- The `for _, discord := range discords` loop, `widgets` being the slice
built so far. -/
def renderLoop : List GoAny → List RowWidget → Res (List RowWidget)
  | [], widgets => Except.ok widgets
  | discord :: rest, widgets => do
    let discordInstall ← assertDiscordInstall discord
    let isSelected := decide (widgets.length = 0)
    let d ← deref discordInstall
    renderLoop rest
      (widgets ++ [RowWidget.mk d.path isSelected (d.branch ++ " (" ++ d.path ++ ")")])

/-- Code of `renderDiscordInstallations`. -/
def renderDiscordInstallations (s : GuiState W) : Res (List RowWidget) :=
  renderLoop s.discords []

/-! ## constants.go -/

/-- The table `LinuxDiscordNames`. -/
def LinuxDiscordNames : List String :=
  [ "Discord",
    "DiscordPTB",
    "DiscordCanary",
    "DiscordDevelopment",
    "discord",
    "discordptb",
    "discordcanary",
    "discorddevelopment",
    "discord-ptb",
    "discord-canary",
    "discord-development",
    "com.discordapp.Discord",
    "com.discordapp.DiscordPTB",
    "com.discordapp.DiscordCanary",
    "com.discordapp.DiscordDevelopment" ]

/-- The channel suffixes of the claim about `LinuxDiscordNames`: stable, PTB,
canary, development. -/
def channelSuffixes : List String := ["", "PTB", "Canary", "Development"]

/-- Lower-case form of an ASCII string. -/
def lowercase (s : String) : String := String.mk (s.data.map Char.toLower)

/-- The names the claim lists for one channel suffix. -/
def variantsOf (suffix : String) : List String :=
  [ "Discord" ++ suffix,
    lowercase ("Discord" ++ suffix),
    "com.discordapp.Discord" ++ suffix ]
  ++ (if suffix = "" then [] else ["discord-" ++ lowercase suffix])

/-- A slice holding (non-nil) pointers to the given installation records. -/
def installs (ds : List DiscordInstall) : List GoAny :=
  ds.map (fun d => GoAny.installPtr (some d))

/-- The rows expected for the installations `ds` when `k` rows precede them:
radio text `path`, selected only when no row precedes, label `branch (path)`. -/
def rowsFrom : Nat → List DiscordInstall → List RowWidget
  | _, [] => []
  | k, d :: ds =>
    RowWidget.mk d.path (decide (k = 0)) (d.branch ++ " (" ++ d.path ++ ")")
      :: rowsFrom (k + 1) ds

/-- What a caller observes of an operation: the value returned and the
environment left behind, or the panic. -/
def observe {α : Type} (r : Res (α × GuiState W)) : Res (α × W) :=
  r.map (fun x => (x.1, x.2.world))

/-! ## Patch engine, from sections 3 and 4.3 of the design

`patch` and `unpatch` are declared in files other than `gui.go` and
`constants.go`. The model is of one operation at a time: the AlreadyBusy
failure of section 5 arises only while another operation is in flight against
the same installation, a state this model does not have. -/

/-- Modelled from the spec: an ArchiveEntry, reduced to its name and its bytes
(offset and length are those of the bytes in table order). -/
structure ArchiveEntry where
  name : String
  bytes : List Nat
  deriving DecidableEq, Repr

/-- Modelled from the spec: the packed archive is its entry table in order;
two archives are byte-identical when they are equal. -/
abbrev Archive := List ArchiveEntry

/-- Modelled from the spec: the names the patch engine is built around, the
injected entry and the designated bootstrap entry, and the change made to the
bootstrap entry so that it requires the injected one. -/
structure PatchConfig where
  injectedName : String
  bootstrapName : String
  requireInjected : List Nat → List Nat

/-- Modelled from the spec: the states of the PatchEngine state machine. -/
inductive PatchState where
  | Unpatched
  | Patched
  deriving DecidableEq, Repr

/-- Modelled from the spec: the failure of `unpatch` in the error taxonomy of
section 7. -/
inductive PatchError where
  | NoBackup
  deriving DecidableEq, Repr

/-- Modelled from the spec: an Installation with what its resource directory
holds: the archive and, when there is one, the backup that preserves the
original (pre-patch) archive. -/
structure Installation where
  rootPath : String
  archive : Archive
  backup : Option Archive
  deriving DecidableEq, Repr

/-- Modelled from the spec: the state is derived by inspecting the entry table
for the presence of the injected entry name. -/
def patchState (cfg : PatchConfig) (inst : Installation) : PatchState :=
  if inst.archive.any (fun e => e.name == cfg.injectedName) then PatchState.Patched
  else PatchState.Unpatched

/-- Modelled from the spec: the PatchRecord invariant, a backup of the original
archive exists whenever the installation is Patched. -/
def validInstallation (cfg : PatchConfig) (inst : Installation) : Bool :=
  match patchState cfg inst with
  | PatchState.Patched => inst.backup.isSome
  | PatchState.Unpatched => true

/-- Modelled from the spec: the pre-patch state of the archive. While the
installation is Unpatched it is the archive itself; once Patched it is what the
PatchRecord preserves as a backup, "the original (pre-patch) archive". -/
def prePatchArchive (cfg : PatchConfig) (inst : Installation) : Option Archive :=
  match patchState cfg inst with
  | PatchState.Unpatched => some inst.archive
  | PatchState.Patched => inst.backup

/-- Modelled from the spec: staging the artifact as the injected entry, in
place of an entry of that name if there is one, every other entry kept byte
for byte. -/
def stage (cfg : PatchConfig) (a : Archive) (artifact : List Nat) : Archive :=
  a.filter (fun e => e.name != cfg.injectedName) ++ [ArchiveEntry.mk cfg.injectedName artifact]

/-- Modelled from the spec: the rewrite done by `patch` on an Unpatched
archive, inserting the new entry and modifying the bootstrap entry to require
it, every other entry kept byte for byte. -/
def inject (cfg : PatchConfig) (a : Archive) (artifact : List Nat) : Archive :=
  stage cfg
    (a.map (fun e => if e.name = cfg.bootstrapName
      then ArchiveEntry.mk e.name (cfg.requireInjected e.bytes) else e))
    artifact

/-- Modelled from the spec: `patch(installation, artifact)`. If Unpatched it
first copies the current archive to the backup and then rewrites the archive;
on a Patched installation it is a repair that re-stages the artifact in place
(the bootstrap entry already requires it) and leaves the backup alone, so that
repeating `patch` with the same artifact leaves the same archive. -/
def patch (cfg : PatchConfig) (inst : Installation) (artifact : List Nat) :
    Except PatchError Installation :=
  match patchState cfg inst with
  | PatchState.Unpatched =>
    Except.ok { inst with backup := some inst.archive,
                          archive := inject cfg inst.archive artifact }
  | PatchState.Patched =>
    Except.ok { inst with archive := stage cfg inst.archive artifact }

/-- Modelled from the spec: `unpatch(installation)`. It fails with NoBackup if
Patched but the backup is missing; otherwise it restores the backup over the
current archive and removes the backup (with no backup and an Unpatched
archive there is nothing to restore). -/
def unpatch (cfg : PatchConfig) (inst : Installation) : Except PatchError Installation :=
  match inst.backup with
  | some original => Except.ok { inst with archive := original, backup := none }
  | none =>
    match patchState cfg inst with
    | PatchState.Patched => Except.error PatchError.NoBackup
    | PatchState.Unpatched => Except.ok inst

/-! ## Sample values -/

/-- A core over a counter: every call succeeds and counts; OpenAsar is
installed when the counter is odd; `unpatch` reports a missing backup. -/
def sampleCore : Core Nat where
  unpatch := fun _ w => Except.ok (some "no backup", w + 1)
  IsOpenAsar := fun _ w => Except.ok (decide (w % 2 = 1), w)
  InstallOpenAsar := fun _ w => Except.ok (some "permission denied", w + 1)
  UninstallOpenAsar := fun _ w => Except.ok (some "not installed", w + 1)
  installLatestBuilds := fun w => Except.ok (some "network error", w + 1)

/-- The stable installation of the samples. -/
def sampleStable : DiscordInstall := DiscordInstall.mk "/opt/discord" "stable"

/-- The canary installation of the samples. -/
def sampleCanary : DiscordInstall := DiscordInstall.mk "/opt/discord-canary" "canary"

/-- A state of the window with the given list and environment. -/
def sampleState (discords : List GoAny) (w : Nat) : GuiState Nat :=
  GuiState.mk discords "/tmp/custom" "" "" [] w []

/-- The names of the sample patch engine. -/
def sampleConfig : PatchConfig :=
  PatchConfig.mk "vencord.js" "index.js" (fun b => 1 :: b)

/-- An Unpatched installation with a one-entry archive. -/
def sampleUnpatched : Installation :=
  Installation.mk "/opt/discord" [ArchiveEntry.mk "index.js" [7]] none

/-! ## Unfolding lemmas for the helper functions -/

theorem index_zero_cons (x : GoAny) (xs : List GoAny) : index (x :: xs) 0 = Except.ok x := rfl

theorem UninstallVencord_nil (core : Core W) (s : GuiState W) (h : s.discords = []) :
    UninstallVencord core s = Except.ok (some "No Discord installation found", s) := by
  simp [UninstallVencord, h]

theorem InstallOpenAsar_nil (core : Core W) (s : GuiState W) (h : s.discords = []) :
    InstallOpenAsar core s = Except.ok (some "No Discord installation found", s) := by
  simp [InstallOpenAsar, h]

theorem UninstallOpenAsar_nil (core : Core W) (s : GuiState W) (h : s.discords = []) :
    UninstallOpenAsar core s = Except.ok (some "No Discord installation found", s) := by
  simp [UninstallOpenAsar, h]

theorem IsOpenAsarInstalled_nil (core : Core W) (s : GuiState W) (h : s.discords = []) :
    IsOpenAsarInstalled core s = Except.ok (false, s) := by
  simp [IsOpenAsarInstalled, h]

theorem UninstallVencord_cons (core : Core W) (s : GuiState W) (x : GoAny) (xs : List GoAny)
    (h : s.discords = x :: xs) :
    UninstallVencord core s =
      (assertDiscordInstall x).bind (fun p =>
        (core.unpatch p s.world).bind (fun r =>
          Except.ok (r.1, s.after (Event.unpatch p) r.2))) := by
  simp [UninstallVencord, h, index_zero_cons]
  rfl

theorem InstallOpenAsar_cons (core : Core W) (s : GuiState W) (x : GoAny) (xs : List GoAny)
    (h : s.discords = x :: xs) :
    InstallOpenAsar core s =
      (assertDiscordInstall x).bind (fun p =>
        (core.InstallOpenAsar p s.world).bind (fun r =>
          Except.ok (r.1, s.after (Event.installOpenAsar p) r.2))) := by
  simp [InstallOpenAsar, h, index_zero_cons]
  rfl

theorem UninstallOpenAsar_cons (core : Core W) (s : GuiState W) (x : GoAny) (xs : List GoAny)
    (h : s.discords = x :: xs) :
    UninstallOpenAsar core s =
      (assertDiscordInstall x).bind (fun p =>
        (core.UninstallOpenAsar p s.world).bind (fun r =>
          Except.ok (r.1, s.after (Event.uninstallOpenAsar p) r.2))) := by
  simp [UninstallOpenAsar, h, index_zero_cons]
  rfl

theorem IsOpenAsarInstalled_cons (core : Core W) (s : GuiState W) (x : GoAny) (xs : List GoAny)
    (h : s.discords = x :: xs) :
    IsOpenAsarInstalled core s =
      (assertDiscordInstall x).bind (fun p =>
        (core.IsOpenAsar p s.world).bind (fun r =>
          Except.ok (r.1, s.after (Event.isOpenAsar p) r.2))) := by
  simp [IsOpenAsarInstalled, h, index_zero_cons]
  rfl

/-- A forwarded call that returns was made on the pointer held by the first
list element, and changed the environment and the trace only. -/
theorem forwarded_of_ok {α : Type} (s : GuiState W) (x : GoAny)
    (method : Option DiscordInstall → W → Res (α × W)) (ev : Option DiscordInstall → Event)
    (r : α × GuiState W)
    (h : (assertDiscordInstall x).bind (fun p =>
        (method p s.world).bind (fun q => Except.ok (q.1, s.after (ev p) q.2))) = Except.ok r) :
    ∃ p, x = GoAny.installPtr p ∧ method p s.world = Except.ok (r.1, r.2.world) ∧
      r.2 = s.after (ev p) r.2.world := by
  cases x with
  | nilInterface => simp [assertDiscordInstall, Except.bind] at h
  | other t => simp [assertDiscordInstall, Except.bind] at h
  | installPtr p =>
    refine ⟨p, rfl, ?_⟩
    simp only [assertDiscordInstall, Except.bind] at h
    cases hm : method p s.world with
    | error e => simp [hm] at h
    | ok q =>
      simp only [hm, Except.ok.injEq] at h
      subst h
      exact ⟨rfl, rfl⟩

/-! ## C1: the guard on the empty installation list -/

/-- C1. On an empty installation list `UninstallVencord`, `InstallOpenAsar` and
`UninstallOpenAsar` return the error "No Discord installation found" and leave
the whole state, trace of calls included, as it was, and
`IsOpenAsarInstalled` returns false. On a non-empty list none of them returns
through the guard: whenever one returns, it has called the corresponding
method of the pointer in `discords[0]` and returns what the method returned. -/
theorem empty_list_guard (core : Core W) (s : GuiState W) :
    (s.discords = [] →
      UninstallVencord core s = Except.ok (some "No Discord installation found", s) ∧
      InstallOpenAsar core s = Except.ok (some "No Discord installation found", s) ∧
      UninstallOpenAsar core s = Except.ok (some "No Discord installation found", s) ∧
      IsOpenAsarInstalled core s = Except.ok (false, s)) ∧
    (s.discords ≠ [] →
      (∀ r, UninstallVencord core s = Except.ok r →
        ∃ p, s.discords.head? = some (GoAny.installPtr p) ∧
          core.unpatch p s.world = Except.ok (r.1, r.2.world) ∧
          r.2.trace = s.trace ++ [Event.unpatch p]) ∧
      (∀ r, InstallOpenAsar core s = Except.ok r →
        ∃ p, s.discords.head? = some (GoAny.installPtr p) ∧
          core.InstallOpenAsar p s.world = Except.ok (r.1, r.2.world) ∧
          r.2.trace = s.trace ++ [Event.installOpenAsar p]) ∧
      (∀ r, UninstallOpenAsar core s = Except.ok r →
        ∃ p, s.discords.head? = some (GoAny.installPtr p) ∧
          core.UninstallOpenAsar p s.world = Except.ok (r.1, r.2.world) ∧
          r.2.trace = s.trace ++ [Event.uninstallOpenAsar p]) ∧
      (∀ r, IsOpenAsarInstalled core s = Except.ok r →
        ∃ p, s.discords.head? = some (GoAny.installPtr p) ∧
          core.IsOpenAsar p s.world = Except.ok (r.1, r.2.world) ∧
          r.2.trace = s.trace ++ [Event.isOpenAsar p])) := by
  constructor
  · intro h
    exact ⟨UninstallVencord_nil core s h, InstallOpenAsar_nil core s h,
      UninstallOpenAsar_nil core s h, IsOpenAsarInstalled_nil core s h⟩
  · intro h
    obtain ⟨x, xs, hx⟩ := List.exists_cons_of_ne_nil h
    refine ⟨?_, ?_, ?_, ?_⟩
    · intro r hr
      rw [UninstallVencord_cons core s x xs hx] at hr
      obtain ⟨p, hp, h1, h2⟩ := forwarded_of_ok s x core.unpatch Event.unpatch r hr
      exact ⟨p, by simp [hx, hp], h1, congrArg GuiState.trace h2⟩
    · intro r hr
      rw [InstallOpenAsar_cons core s x xs hx] at hr
      obtain ⟨p, hp, h1, h2⟩ := forwarded_of_ok s x core.InstallOpenAsar Event.installOpenAsar r hr
      exact ⟨p, by simp [hx, hp], h1, congrArg GuiState.trace h2⟩
    · intro r hr
      rw [UninstallOpenAsar_cons core s x xs hx] at hr
      obtain ⟨p, hp, h1, h2⟩ :=
        forwarded_of_ok s x core.UninstallOpenAsar Event.uninstallOpenAsar r hr
      exact ⟨p, by simp [hx, hp], h1, congrArg GuiState.trace h2⟩
    · intro r hr
      rw [IsOpenAsarInstalled_cons core s x xs hx] at hr
      obtain ⟨p, hp, h1, h2⟩ := forwarded_of_ok s x core.IsOpenAsar Event.isOpenAsar r hr
      exact ⟨p, by simp [hx, hp], h1, congrArg GuiState.trace h2⟩

/-- Witness of C1 on the empty list and on a list of two installations. -/
theorem empty_list_guard_witness :
    UninstallVencord sampleCore (sampleState [] 0)
        = Except.ok (some "No Discord installation found", sampleState [] 0) ∧
    ∃ p, (sampleState (installs [sampleStable, sampleCanary]) 0).discords.head?
          = some (GoAny.installPtr p) ∧
      sampleCore.unpatch p 0 = Except.ok (some "no backup", 1) ∧
      [Event.unpatch (some sampleStable)] = [] ++ [Event.unpatch p] :=
  ⟨((empty_list_guard sampleCore (sampleState [] 0)).1 rfl).1,
   ((empty_list_guard sampleCore (sampleState (installs [sampleStable, sampleCanary]) 0)).2
      (by decide)).1
      (some "no backup",
        (sampleState (installs [sampleStable, sampleCanary]) 0).after
          (Event.unpatch (some sampleStable)) 1) rfl⟩

/-! ## The button handlers -/

theorem IsValidInstallLocation_eq_false (s : GuiState W) :
    IsValidInstallLocation s = false ↔ s.discords = [] := by
  cases h : s.discords <;> simp [IsValidInstallLocation, h]

theorem IsValidInstallLocation_eq_true (s : GuiState W) :
    IsValidInstallLocation s = true ↔ s.discords ≠ [] := by
  cases h : s.discords <;> simp [IsValidInstallLocation, h]

theorem reportError_some (m : String) (s : GuiState W) :
    reportError (some m, s) = showErrorModal m s := rfl

theorem reportError_none (s : GuiState W) : reportError (none, s) = s := rfl

theorem installClick_invalid (core : Core W) (s : GuiState W)
    (h : IsValidInstallLocation s = false) :
    installClick core s = Except.ok (showErrorModal "Invalid installation location" s) := by
  simp [installClick, h]

theorem installClick_valid (core : Core W) (s : GuiState W)
    (h : IsValidInstallLocation s = true) :
    installClick core s =
      (core.installLatestBuilds s.world).map
        (fun r => reportError (r.1, s.after Event.installLatestBuilds r.2)) := by
  simp only [installClick, h, Bool.not_true, Bool.false_eq_true, if_false]
  cases core.installLatestBuilds s.world <;> rfl

theorem uninstallClick_valid (core : Core W) (s : GuiState W)
    (h : IsValidInstallLocation s = true) :
    uninstallClick core s = (UninstallVencord core s).map reportError := by
  simp only [uninstallClick, h, Bool.not_true, Bool.false_eq_true, if_false]
  cases UninstallVencord core s <;> rfl

theorem openAsarClick_valid (core : Core W) (s : GuiState W)
    (h : IsValidInstallLocation s = true) :
    openAsarClick core s = openAsarGo core s := by
  simp [openAsarClick, h]

theorem openAsarGo_of_check (core : Core W) (s s₁ : GuiState W) (b : Bool)
    (h : IsOpenAsarInstalled core s = Except.ok (b, s₁)) :
    openAsarGo core s =
      (if b then UninstallOpenAsar core s₁ else InstallOpenAsar core s₁).map reportError := by
  simp only [openAsarGo, h]
  cases b
  · show (InstallOpenAsar core s₁).bind _ = _
    cases InstallOpenAsar core s₁ <;> rfl
  · show (UninstallOpenAsar core s₁).bind _ = _
    cases UninstallOpenAsar core s₁ <;> rfl

/-! ## C2: "Install" and "Reinstall / Repair" are one operation -/

/-- C2. The "Reinstall / Repair" handler and the "Install" handler are the same
function of the program state. When `IsValidInstallLocation()` is false they
set the error message to "Invalid installation location" and make no call (the
trace is unchanged); otherwise they call `installLatestBuilds` exactly once
and show its error exactly when it returns one. Nothing in either handler
looks at the patch state of the installation. -/
theorem repair_is_install (core : Core W) (s : GuiState W) :
    repairClick core s = installClick core s ∧
    (IsValidInstallLocation s = false →
      installClick core s = Except.ok (showErrorModal "Invalid installation location" s) ∧
      (showErrorModal "Invalid installation location" s).errorMessage
        = "Invalid installation location" ∧
      (showErrorModal "Invalid installation location" s).trace = s.trace ∧
      (showErrorModal "Invalid installation location" s).world = s.world) ∧
    (IsValidInstallLocation s = true →
      (∀ p, core.installLatestBuilds s.world = Except.error p →
        installClick core s = Except.error p) ∧
      (∀ w, core.installLatestBuilds s.world = Except.ok (none, w) →
        installClick core s = Except.ok (s.after Event.installLatestBuilds w)) ∧
      (∀ m w, core.installLatestBuilds s.world = Except.ok (some m, w) →
        installClick core s
          = Except.ok (showErrorModal m (s.after Event.installLatestBuilds w))) ∧
      (∀ s', installClick core s = Except.ok s' →
        s'.trace = s.trace ++ [Event.installLatestBuilds])) := by
  refine ⟨rfl, ?_, ?_⟩
  · intro h
    exact ⟨installClick_invalid core s h, rfl, rfl, rfl⟩
  · intro h
    rw [installClick_valid core s h]
    refine ⟨?_, ?_, ?_, ?_⟩
    · intro p hp
      rw [hp]; rfl
    · intro w hw
      rw [hw]; rfl
    · intro m w hw
      rw [hw]; rfl
    · intro s' hs'
      cases hr : core.installLatestBuilds s.world with
      | error p => rw [hr] at hs'; cases hs'
      | ok r =>
        rw [hr] at hs'
        obtain ⟨e, w⟩ := r
        cases e <;> (cases hs'; rfl)

/-- Witness of C2: without an installation both buttons only show the error;
with one, both call `installLatestBuilds` once and show its error. -/
theorem repair_is_install_witness :
    repairClick sampleCore (sampleState [] 0)
      = Except.ok (showErrorModal "Invalid installation location" (sampleState [] 0)) ∧
    repairClick sampleCore (sampleState (installs [sampleStable]) 0)
      = Except.ok (showErrorModal "network error"
          ((sampleState (installs [sampleStable]) 0).after Event.installLatestBuilds 1)) :=
  ⟨(repair_is_install sampleCore (sampleState [] 0)).1.trans
      ((repair_is_install sampleCore (sampleState [] 0)).2.1 rfl).1,
   (repair_is_install sampleCore (sampleState (installs [sampleStable]) 0)).1.trans
      (((repair_is_install sampleCore (sampleState (installs [sampleStable]) 0)).2.2 rfl).2.2.1
        "network error" 1 rfl)⟩

/-! ## C3: error messages reach the modal verbatim -/

/-- C3. Whatever error message `m` one of `UninstallVencord`,
`InstallOpenAsar`, `UninstallOpenAsar` or `installLatestBuilds` returns inside
a button handler, the handler ends with `errorMessage = m`, unchanged.
`showErrorModal m` sets `errorMessage` to `m` and leaves `infoMessage`,
`discords`, `customDir`, the environment and the trace alone;
`showInfoModal m` does the same for `infoMessage`. -/
theorem error_message_verbatim (core : Core W) (s : GuiState W) (m : String) :
    (IsValidInstallLocation s = true →
      (∀ s₁, UninstallVencord core s = Except.ok (some m, s₁) →
        ∃ s₂, uninstallClick core s = Except.ok s₂ ∧ s₂.errorMessage = m) ∧
      (∀ w, core.installLatestBuilds s.world = Except.ok (some m, w) →
        (∃ s₂, installClick core s = Except.ok s₂ ∧ s₂.errorMessage = m) ∧
        (∃ s₂, repairClick core s = Except.ok s₂ ∧ s₂.errorMessage = m)) ∧
      (∀ s₁ s₂, IsOpenAsarInstalled core s = Except.ok (true, s₁) →
        UninstallOpenAsar core s₁ = Except.ok (some m, s₂) →
        ∃ s₃, openAsarClick core s = Except.ok s₃ ∧ s₃.errorMessage = m) ∧
      (∀ s₁ s₂, IsOpenAsarInstalled core s = Except.ok (false, s₁) →
        InstallOpenAsar core s₁ = Except.ok (some m, s₂) →
        ∃ s₃, openAsarClick core s = Except.ok s₃ ∧ s₃.errorMessage = m)) ∧
    ((showErrorModal m s).errorMessage = m ∧
      (showErrorModal m s).infoMessage = s.infoMessage ∧
      (showErrorModal m s).discords = s.discords ∧
      (showErrorModal m s).customDir = s.customDir ∧
      (showErrorModal m s).world = s.world ∧
      (showErrorModal m s).trace = s.trace ∧
      (showErrorModal m s).popups = s.popups ++ ["Error"]) ∧
    ((showInfoModal m s).infoMessage = m ∧
      (showInfoModal m s).errorMessage = s.errorMessage ∧
      (showInfoModal m s).discords = s.discords ∧
      (showInfoModal m s).customDir = s.customDir ∧
      (showInfoModal m s).world = s.world ∧
      (showInfoModal m s).trace = s.trace ∧
      (showInfoModal m s).popups = s.popups ++ ["Info"]) := by
  refine ⟨?_, ⟨rfl, rfl, rfl, rfl, rfl, rfl, rfl⟩, ⟨rfl, rfl, rfl, rfl, rfl, rfl, rfl⟩⟩
  intro hv
  refine ⟨?_, ?_, ?_, ?_⟩
  · intro s₁ h
    refine ⟨showErrorModal m s₁, ?_, rfl⟩
    rw [uninstallClick_valid core s hv, h]; rfl
  · intro w h
    have hi : installClick core s
        = Except.ok (showErrorModal m (s.after Event.installLatestBuilds w)) := by
      rw [installClick_valid core s hv, h]; rfl
    exact ⟨⟨_, hi, rfl⟩, ⟨_, hi, rfl⟩⟩
  · intro s₁ s₂ hc h
    refine ⟨showErrorModal m s₂, ?_, rfl⟩
    rw [openAsarClick_valid core s hv, openAsarGo_of_check core s s₁ true hc]
    simp only [if_true, h]; rfl
  · intro s₁ s₂ hc h
    refine ⟨showErrorModal m s₂, ?_, rfl⟩
    rw [openAsarClick_valid core s hv, openAsarGo_of_check core s s₁ false hc]
    simp only [Bool.false_eq_true, if_false, h]; rfl

/-- Witness of C3: the error "no backup" of `unpatch` is the text shown after
a click on "Uninstall". -/
theorem error_message_verbatim_witness :
    ∃ s₂, uninstallClick sampleCore (sampleState (installs [sampleStable]) 0) = Except.ok s₂ ∧
      s₂.errorMessage = "no backup" :=
  ((error_message_verbatim sampleCore (sampleState (installs [sampleStable]) 0)
      "no backup").1 rfl).1
    ((sampleState (installs [sampleStable]) 0).after (Event.unpatch (some sampleStable)) 1) rfl

/-! ## `renderDiscordInstallations` -/

theorem renderLoop_installs (ds : List DiscordInstall) (acc : List RowWidget) :
    renderLoop (installs ds) acc = Except.ok (acc ++ rowsFrom acc.length ds) := by
  induction ds generalizing acc with
  | nil => simp [installs, renderLoop, rowsFrom]
  | cons d ds ih =>
    have step : renderLoop (installs (d :: ds)) acc
        = renderLoop (installs ds)
            (acc ++ [RowWidget.mk d.path (decide (acc.length = 0))
              (d.branch ++ " (" ++ d.path ++ ")")]) := rfl
    rw [step, ih]
    simp [rowsFrom]

theorem rowsFrom_length (k : Nat) (ds : List DiscordInstall) :
    (rowsFrom k ds).length = ds.length := by
  induction ds generalizing k with
  | nil => rfl
  | cons d ds ih => simp [rowsFrom, ih]

theorem rowsFrom_getElem? (k i : Nat) (ds : List DiscordInstall) (d : DiscordInstall)
    (h : ds[i]? = some d) :
    (rowsFrom k ds)[i]?
      = some (RowWidget.mk d.path (decide (k + i = 0)) (d.branch ++ " (" ++ d.path ++ ")")) := by
  induction ds generalizing k i with
  | nil => simp at h
  | cons e ds ih =>
    cases i with
    | zero =>
      simp only [List.getElem?_cons_zero, Option.some.injEq] at h
      subst h
      simp [rowsFrom]
    | succ j =>
      simp only [List.getElem?_cons_succ] at h
      have := ih (k + 1) j h
      simp only [rowsFrom, List.getElem?_cons_succ, this]
      have e1 : k + 1 + j = k + (j + 1) := by omega
      rw [e1]

theorem rowsFrom_succ_filter (k : Nat) (ds : List DiscordInstall) :
    (rowsFrom (k + 1) ds).filter (fun r => r.radioActive) = [] := by
  induction ds generalizing k with
  | nil => rfl
  | cons d ds ih => simp [rowsFrom, ih]

theorem rowsFrom_zero_filter (d : DiscordInstall) (ds : List DiscordInstall) :
    (rowsFrom 0 (d :: ds)).filter (fun r => r.radioActive)
      = [RowWidget.mk d.path true (d.branch ++ " (" ++ d.path ++ ")")] := by
  simp [rowsFrom, rowsFrom_succ_filter]

theorem renderDiscordInstallations_installs (s : GuiState W) (ds : List DiscordInstall)
    (h : s.discords = installs ds) :
    renderDiscordInstallations s = Except.ok (rowsFrom 0 ds) := by
  simp [renderDiscordInstallations, h, renderLoop_installs]

/-! ## C9: one row per installation -/

/-- C9. For a list of `n` installations `renderDiscordInstallations` returns
`n` rows in list order; row `i` has the radio-button text `discords[i].path`
and the label `branch (path)` of `discords[i]`, and is selected exactly when
`i = 0`; so exactly one row is selected when `n > 0`, and the result is empty
when `n = 0`. -/
theorem one_row_per_installation (s : GuiState W) (ds : List DiscordInstall)
    (h : s.discords = installs ds) :
    ∃ rows, renderDiscordInstallations s = Except.ok rows ∧
      rows.length = ds.length ∧
      (∀ i d, ds[i]? = some d →
        rows[i]? = some (RowWidget.mk d.path (decide (i = 0))
          (d.branch ++ " (" ++ d.path ++ ")"))) ∧
      (ds ≠ [] → (rows.filter (fun r => r.radioActive)).length = 1) ∧
      (ds = [] → rows = []) := by
  refine ⟨rowsFrom 0 ds, renderDiscordInstallations_installs s ds h, rowsFrom_length 0 ds,
    ?_, ?_, ?_⟩
  · intro i d hd
    have := rowsFrom_getElem? 0 i ds d hd
    simpa using this
  · intro hne
    obtain ⟨d, ds', rfl⟩ := List.exists_cons_of_ne_nil hne
    rw [rowsFrom_zero_filter]
    rfl
  · intro he
    subst he
    rfl

/-- Witness of C9 on the list of the stable and the canary installation. -/
theorem one_row_per_installation_witness :
    ∃ rows, renderDiscordInstallations (sampleState (installs [sampleStable, sampleCanary]) 0)
        = Except.ok rows ∧
      rows.length = [sampleStable, sampleCanary].length ∧
      (∀ i d, [sampleStable, sampleCanary][i]? = some d →
        rows[i]? = some (RowWidget.mk d.path (decide (i = 0))
          (d.branch ++ " (" ++ d.path ++ ")"))) ∧
      ([sampleStable, sampleCanary] ≠ [] →
        (rows.filter (fun r => r.radioActive)).length = 1) ∧
      ([sampleStable, sampleCanary] = [] → rows = []) :=
  one_row_per_installation (sampleState (installs [sampleStable, sampleCanary]) 0)
    [sampleStable, sampleCanary] rfl

/-! ## Forwarding to the first installation -/

theorem assertDiscordInstall_installPtr (p : Option DiscordInstall) :
    assertDiscordInstall (GoAny.installPtr p) = Except.ok p := rfl

theorem UninstallVencord_installs (core : Core W) (s : GuiState W) (d : DiscordInstall)
    (ds : List DiscordInstall) (h : s.discords = installs (d :: ds)) :
    UninstallVencord core s =
      (core.unpatch (some d) s.world).map
        (fun r => (r.1, s.after (Event.unpatch (some d)) r.2)) := by
  rw [UninstallVencord_cons core s (GoAny.installPtr (some d)) (installs ds) h,
    assertDiscordInstall_installPtr]
  show (core.unpatch (some d) s.world).bind _ = _
  cases core.unpatch (some d) s.world <;> rfl

theorem InstallOpenAsar_installs (core : Core W) (s : GuiState W) (d : DiscordInstall)
    (ds : List DiscordInstall) (h : s.discords = installs (d :: ds)) :
    InstallOpenAsar core s =
      (core.InstallOpenAsar (some d) s.world).map
        (fun r => (r.1, s.after (Event.installOpenAsar (some d)) r.2)) := by
  rw [InstallOpenAsar_cons core s (GoAny.installPtr (some d)) (installs ds) h,
    assertDiscordInstall_installPtr]
  show (core.InstallOpenAsar (some d) s.world).bind _ = _
  cases core.InstallOpenAsar (some d) s.world <;> rfl

theorem UninstallOpenAsar_installs (core : Core W) (s : GuiState W) (d : DiscordInstall)
    (ds : List DiscordInstall) (h : s.discords = installs (d :: ds)) :
    UninstallOpenAsar core s =
      (core.UninstallOpenAsar (some d) s.world).map
        (fun r => (r.1, s.after (Event.uninstallOpenAsar (some d)) r.2)) := by
  rw [UninstallOpenAsar_cons core s (GoAny.installPtr (some d)) (installs ds) h,
    assertDiscordInstall_installPtr]
  show (core.UninstallOpenAsar (some d) s.world).bind _ = _
  cases core.UninstallOpenAsar (some d) s.world <;> rfl

theorem IsOpenAsarInstalled_installs (core : Core W) (s : GuiState W) (d : DiscordInstall)
    (ds : List DiscordInstall) (h : s.discords = installs (d :: ds)) :
    IsOpenAsarInstalled core s =
      (core.IsOpenAsar (some d) s.world).map
        (fun r => (r.1, s.after (Event.isOpenAsar (some d)) r.2)) := by
  rw [IsOpenAsarInstalled_cons core s (GoAny.installPtr (some d)) (installs ds) h,
    assertDiscordInstall_installPtr]
  show (core.IsOpenAsar (some d) s.world).bind _ = _
  cases core.IsOpenAsar (some d) s.world <;> rfl

/-- What a caller observes of a forwarded call depends on the first list
element and on the environment only. -/
theorem observe_forward {α : Type} (s t : GuiState W) (x : GoAny)
    (method : Option DiscordInstall → W → Res (α × W)) (ev : Option DiscordInstall → Event)
    (hw : t.world = s.world) :
    observe ((assertDiscordInstall x).bind (fun p =>
        (method p t.world).bind (fun q => Except.ok (q.1, t.after (ev p) q.2))))
      = observe ((assertDiscordInstall x).bind (fun p =>
        (method p s.world).bind (fun q => Except.ok (q.1, s.after (ev p) q.2)))) := by
  rw [hw]
  cases assertDiscordInstall x with
  | error e => rfl
  | ok p =>
    show observe ((method p s.world).bind _) = observe ((method p s.world).bind _)
    cases method p s.world <;> rfl

/-! ## C4: the type assertions -/

/-- C4, as stated, fails: on a list whose first element is not a
`*DiscordInstall` the four helper functions panic at the type assertion, and
`renderDiscordInstallations` panics at such an element wherever it stands, and
at a nil `*DiscordInstall` when it reads `path`. -/
theorem type_assertion_can_fail :
    UninstallVencord sampleCore (sampleState [GoAny.other "string"] 0)
      = Except.error Panic.interfaceConversion ∧
    IsOpenAsarInstalled sampleCore (sampleState [GoAny.other "string"] 0)
      = Except.error Panic.interfaceConversion ∧
    InstallOpenAsar sampleCore (sampleState [GoAny.other "string"] 0)
      = Except.error Panic.interfaceConversion ∧
    UninstallOpenAsar sampleCore (sampleState [GoAny.other "string"] 0)
      = Except.error Panic.interfaceConversion ∧
    renderDiscordInstallations
        (sampleState [GoAny.installPtr (some sampleStable), GoAny.other "string"] 0)
      = Except.error Panic.interfaceConversion ∧
    renderDiscordInstallations (sampleState [GoAny.nilInterface] 0)
      = Except.error Panic.interfaceConversion ∧
    renderDiscordInstallations (sampleState [GoAny.installPtr none] 0)
      = Except.error Panic.nilDereference :=
  ⟨rfl, rfl, rfl, rfl, rfl, rfl, rfl⟩

/-- A list all of whose elements are non-nil `*DiscordInstall` is the list of
pointers to some installation records. -/
theorem exists_installs_of_all (xs : List GoAny)
    (h : ∀ x ∈ xs, ∃ d, x = GoAny.installPtr (some d)) : ∃ ds, xs = installs ds := by
  induction xs with
  | nil => exact ⟨[], rfl⟩
  | cons x xs ih =>
    obtain ⟨d, hd⟩ := h x (List.mem_cons_self x xs)
    obtain ⟨ds, hds⟩ := ih (fun y hy => h y (List.mem_cons_of_mem x hy))
    exact ⟨d :: ds, by rw [hd, hds]; rfl⟩

/-- The loop of `renderDiscordInstallations` gets to its end only on non-nil
`*DiscordInstall` elements. -/
theorem all_installs_of_renderLoop_ok (xs : List GoAny) (acc rows : List RowWidget)
    (h : renderLoop xs acc = Except.ok rows) :
    ∀ x ∈ xs, ∃ d, x = GoAny.installPtr (some d) := by
  induction xs generalizing acc with
  | nil => intro x hx; cases hx
  | cons y ys ih =>
    cases y with
    | nilInterface => cases h
    | other t => cases h
    | installPtr p =>
      cases p with
      | none => cases h
      | some d =>
        have hrest : renderLoop ys
            (acc ++ [RowWidget.mk d.path (decide (acc.length = 0))
              (d.branch ++ " (" ++ d.path ++ ")")]) = Except.ok rows := h
        intro x hx
        rcases List.mem_cons.1 hx with rfl | hx'
        · exact ⟨d, rfl⟩
        · exact ih _ hrest x hx'

/-- A panic of a forwarded call whose type assertion succeeds is a panic of
the method. -/
theorem method_error_of_forward_error {α : Type} (s : GuiState W) (p : Option DiscordInstall)
    (method : Option DiscordInstall → W → Res (α × W)) (ev : Option DiscordInstall → Event)
    (pn : Panic)
    (h : (assertDiscordInstall (GoAny.installPtr p)).bind (fun q =>
        (method q s.world).bind (fun r => Except.ok (r.1, s.after (ev q) r.2)))
          = Except.error pn) :
    method p s.world = Except.error pn := by
  have h' : (method p s.world).bind (fun r => Except.ok (r.1, s.after (ev p) r.2))
      = Except.error pn := h
  cases hm : method p s.world with
  | error e => rw [hm] at h'; cases h'; rfl
  | ok r => rw [hm] at h'; cases h'

/-- A forwarded call on an element of another dynamic type panics at the type
assertion. -/
theorem forward_error_of_foreign {α : Type} (s : GuiState W) (x : GoAny)
    (method : Option DiscordInstall → W → Res (α × W)) (ev : Option DiscordInstall → Event)
    (hx : ∀ p, x ≠ GoAny.installPtr p) :
    (assertDiscordInstall x).bind (fun q =>
        (method q s.world).bind (fun r => Except.ok (r.1, s.after (ev q) r.2)))
      = Except.error Panic.interfaceConversion := by
  cases x with
  | nilInterface => rfl
  | other t => rfl
  | installPtr p => exact absurd rfl (hx p)

/-- C4, amended. For every value of `discords`:
`renderDiscordInstallations` completes without a run-time panic exactly when
every element is a non-nil `*DiscordInstall`; when the list is empty or
`discords[0]` is a `*DiscordInstall`, a panic of `UninstallVencord`,
`IsOpenAsarInstalled`, `InstallOpenAsar` or `UninstallOpenAsar` is a panic of
the method it forwards to on `discords[0]`, whatever the other elements are;
and when `discords[0]` has another dynamic type each of the four panics at its
type assertion. -/
theorem type_assertions_by_element (core : Core W) (s : GuiState W) :
    ((∃ rows, renderDiscordInstallations s = Except.ok rows) ↔
      ∀ x ∈ s.discords, ∃ d, x = GoAny.installPtr (some d)) ∧
    ((∀ x, s.discords.head? = some x → ∃ p, x = GoAny.installPtr p) →
      (∀ pn, UninstallVencord core s = Except.error pn →
        ∃ p, s.discords.head? = some (GoAny.installPtr p) ∧
          core.unpatch p s.world = Except.error pn) ∧
      (∀ pn, IsOpenAsarInstalled core s = Except.error pn →
        ∃ p, s.discords.head? = some (GoAny.installPtr p) ∧
          core.IsOpenAsar p s.world = Except.error pn) ∧
      (∀ pn, InstallOpenAsar core s = Except.error pn →
        ∃ p, s.discords.head? = some (GoAny.installPtr p) ∧
          core.InstallOpenAsar p s.world = Except.error pn) ∧
      (∀ pn, UninstallOpenAsar core s = Except.error pn →
        ∃ p, s.discords.head? = some (GoAny.installPtr p) ∧
          core.UninstallOpenAsar p s.world = Except.error pn)) ∧
    (∀ x, s.discords.head? = some x → (∀ p, x ≠ GoAny.installPtr p) →
      UninstallVencord core s = Except.error Panic.interfaceConversion ∧
      IsOpenAsarInstalled core s = Except.error Panic.interfaceConversion ∧
      InstallOpenAsar core s = Except.error Panic.interfaceConversion ∧
      UninstallOpenAsar core s = Except.error Panic.interfaceConversion) := by
  refine ⟨⟨?_, ?_⟩, ?_, ?_⟩
  · rintro ⟨rows, hrows⟩
    exact all_installs_of_renderLoop_ok s.discords [] rows hrows
  · intro hall
    obtain ⟨ds, hds⟩ := exists_installs_of_all s.discords hall
    exact ⟨_, renderDiscordInstallations_installs s ds hds⟩
  · intro hhead
    cases hd : s.discords with
    | nil =>
      refine ⟨?_, ?_, ?_, ?_⟩ <;> intro pn hp
      · rw [UninstallVencord_nil core s hd] at hp; cases hp
      · rw [IsOpenAsarInstalled_nil core s hd] at hp; cases hp
      · rw [InstallOpenAsar_nil core s hd] at hp; cases hp
      · rw [UninstallOpenAsar_nil core s hd] at hp; cases hp
    | cons x xs =>
      obtain ⟨p, rfl⟩ := hhead x (by rw [hd]; rfl)
      refine ⟨?_, ?_, ?_, ?_⟩ <;> intro pn hp
      · rw [UninstallVencord_cons core s _ xs hd] at hp
        exact ⟨p, rfl, method_error_of_forward_error s p core.unpatch Event.unpatch pn hp⟩
      · rw [IsOpenAsarInstalled_cons core s _ xs hd] at hp
        exact ⟨p, rfl,
          method_error_of_forward_error s p core.IsOpenAsar Event.isOpenAsar pn hp⟩
      · rw [InstallOpenAsar_cons core s _ xs hd] at hp
        exact ⟨p, rfl,
          method_error_of_forward_error s p core.InstallOpenAsar Event.installOpenAsar pn hp⟩
      · rw [UninstallOpenAsar_cons core s _ xs hd] at hp
        exact ⟨p, rfl,
          method_error_of_forward_error s p core.UninstallOpenAsar
            Event.uninstallOpenAsar pn hp⟩
  · intro x hx hforeign
    cases hd : s.discords with
    | nil => rw [hd] at hx; cases hx
    | cons y ys =>
      rw [hd] at hx
      simp only [List.head?_cons, Option.some.injEq] at hx
      subst hx
      rw [UninstallVencord_cons core s _ ys hd, IsOpenAsarInstalled_cons core s _ ys hd,
        InstallOpenAsar_cons core s _ ys hd, UninstallOpenAsar_cons core s _ ys hd]
      exact ⟨forward_error_of_foreign s _ core.unpatch Event.unpatch hforeign,
        forward_error_of_foreign s _ core.IsOpenAsar Event.isOpenAsar hforeign,
        forward_error_of_foreign s _ core.InstallOpenAsar Event.installOpenAsar hforeign,
        forward_error_of_foreign s _ core.UninstallOpenAsar Event.uninstallOpenAsar hforeign⟩

/-- Witness of the amended C4: the rows of the stable and the canary
installation are rendered, and on a list whose first element is a nil
`*DiscordInstall` and whose second is a string a panic of `UninstallVencord`
could only be a panic of `unpatch`. -/
theorem type_assertions_by_element_witness :
    (∃ rows, renderDiscordInstallations (sampleState (installs [sampleStable, sampleCanary]) 0)
      = Except.ok rows) ∧
    (∀ pn, UninstallVencord sampleCore
        (sampleState [GoAny.installPtr none, GoAny.other "string"] 0) = Except.error pn →
      ∃ p, (sampleState [GoAny.installPtr none, GoAny.other "string"] 0).discords.head?
          = some (GoAny.installPtr p) ∧
        sampleCore.unpatch p 0 = Except.error pn) :=
  ⟨(type_assertions_by_element sampleCore
      (sampleState (installs [sampleStable, sampleCanary]) 0)).1.2
      (by
        intro x hx
        simp only [sampleState, installs, List.map, List.mem_cons, List.mem_singleton,
          List.not_mem_nil, or_false] at hx
        rcases hx with rfl | rfl
        · exact ⟨sampleStable, rfl⟩
        · exact ⟨sampleCanary, rfl⟩),
   ((type_assertions_by_element sampleCore
      (sampleState [GoAny.installPtr none, GoAny.other "string"] 0)).2.1
      (by
        intro x hx
        simp only [sampleState, List.head?_cons, Option.some.injEq] at hx
        exact ⟨none, hx.symm⟩)).1⟩

/-! ## C8: the actions operate on the selected installation -/

/-- C8. On a non-empty list of installations the only row that
`renderDiscordInstallations` renders as selected is the row of `discords[0]`,
and `UninstallVencord`, `IsOpenAsarInstalled`, `InstallOpenAsar` and
`UninstallOpenAsar` return what the corresponding method returns on
`discords[0]`; a radio button's `OnChange` does not move the selection. What
a caller observes of them (value returned, environment
left behind, or panic) is the same in any state with the same first list
element and the same environment, whatever the other elements and
`customDir` are. -/
theorem action_target_is_selected (core : Core W) (s : GuiState W) (d : DiscordInstall)
    (ds : List DiscordInstall) (h : s.discords = installs (d :: ds)) :
    (∃ rows, renderDiscordInstallations s = Except.ok rows ∧
      rows.filter (fun r => r.radioActive)
        = [RowWidget.mk d.path true (d.branch ++ " (" ++ d.path ++ ")")]) ∧
    renderDiscordInstallations (radioOnChange s) = renderDiscordInstallations s ∧
    (UninstallVencord core s = (core.unpatch (some d) s.world).map
        (fun r => (r.1, s.after (Event.unpatch (some d)) r.2)) ∧
      IsOpenAsarInstalled core s = (core.IsOpenAsar (some d) s.world).map
        (fun r => (r.1, s.after (Event.isOpenAsar (some d)) r.2)) ∧
      InstallOpenAsar core s = (core.InstallOpenAsar (some d) s.world).map
        (fun r => (r.1, s.after (Event.installOpenAsar (some d)) r.2)) ∧
      UninstallOpenAsar core s = (core.UninstallOpenAsar (some d) s.world).map
        (fun r => (r.1, s.after (Event.uninstallOpenAsar (some d)) r.2))) ∧
    (∀ t : GuiState W, t.discords.head? = s.discords.head? → t.world = s.world →
      observe (UninstallVencord core t) = observe (UninstallVencord core s) ∧
      observe (IsOpenAsarInstalled core t) = observe (IsOpenAsarInstalled core s) ∧
      observe (InstallOpenAsar core t) = observe (InstallOpenAsar core s) ∧
      observe (UninstallOpenAsar core t) = observe (UninstallOpenAsar core s)) := by
  refine ⟨⟨rowsFrom 0 (d :: ds), renderDiscordInstallations_installs s (d :: ds) h,
      rowsFrom_zero_filter d ds⟩, rfl,
    ⟨UninstallVencord_installs core s d ds h, IsOpenAsarInstalled_installs core s d ds h,
      InstallOpenAsar_installs core s d ds h, UninstallOpenAsar_installs core s d ds h⟩, ?_⟩
  intro t ht hw
  have hs : s.discords = GoAny.installPtr (some d) :: installs ds := h
  rw [hs] at ht
  cases htd : t.discords with
  | nil => rw [htd] at ht; cases ht
  | cons y ys =>
    rw [htd] at ht
    simp only [List.head?_cons, Option.some.injEq] at ht
    subst ht
    rw [UninstallVencord_cons core t _ ys htd, UninstallVencord_cons core s _ _ hs,
      IsOpenAsarInstalled_cons core t _ ys htd, IsOpenAsarInstalled_cons core s _ _ hs,
      InstallOpenAsar_cons core t _ ys htd, InstallOpenAsar_cons core s _ _ hs,
      UninstallOpenAsar_cons core t _ ys htd, UninstallOpenAsar_cons core s _ _ hs]
    exact ⟨observe_forward s t _ core.unpatch Event.unpatch hw,
      observe_forward s t _ core.IsOpenAsar Event.isOpenAsar hw,
      observe_forward s t _ core.InstallOpenAsar Event.installOpenAsar hw,
      observe_forward s t _ core.UninstallOpenAsar Event.uninstallOpenAsar hw⟩

/-- Witness of C8: with the stable installation first, `UninstallVencord`
returns what `unpatch` returns on it, also when the rest of the list and
`customDir` differ. -/
theorem action_target_is_selected_witness :
    UninstallVencord sampleCore (sampleState (installs [sampleStable, sampleCanary]) 0)
        = (sampleCore.unpatch (some sampleStable) 0).map
            (fun r => (r.1, (sampleState (installs [sampleStable, sampleCanary]) 0).after
              (Event.unpatch (some sampleStable)) r.2)) ∧
    observe (UninstallVencord sampleCore
        (GuiState.mk (installs [sampleStable]) "" "old" "" ["Info"] 0 []))
      = observe (UninstallVencord sampleCore
          (sampleState (installs [sampleStable, sampleCanary]) 0)) :=
  ⟨(action_target_is_selected sampleCore
      (sampleState (installs [sampleStable, sampleCanary]) 0)
      sampleStable [sampleCanary] rfl).2.2.1.1,
   ((action_target_is_selected sampleCore
      (sampleState (installs [sampleStable, sampleCanary]) 0)
      sampleStable [sampleCanary] rfl).2.2.2
      (GuiState.mk (installs [sampleStable]) "" "old" "" ["Info"] 0 []) rfl rfl).1⟩

/-! ## The OpenAsar toggle -/

theorem reportError_trace (r : GoError × GuiState W) : (reportError r).trace = r.2.trace := by
  obtain ⟨e, s⟩ := r
  cases e <;> rfl

theorem ok_of_map_ok {α β : Type} (r : Res α) (f : α → β) (b : β)
    (h : r.map f = Except.ok b) : ∃ a, r = Except.ok a ∧ f a = b := by
  cases r with
  | error e => cases h
  | ok a => cases h; exact ⟨a, rfl, rfl⟩

theorem openAsarLabel_of_check (core : Core W) (s s₁ : GuiState W) (b : Bool)
    (h : IsOpenAsarInstalled core s = Except.ok (b, s₁)) :
    openAsarLabel core s
      = Except.ok (if b then "Uninstall OpenAsar" else "Install OpenAsar", s₁) := by
  simp only [openAsarLabel, h]
  cases b <;> rfl

/-- The trace of a click on the OpenAsar button that ran its goroutine to the
end: the check, then one call in the direction the check gave. -/
theorem openAsarGo_trace (core : Core W) (s s₁ s₂ : GuiState W) (b : Bool) (x : GoAny)
    (xs : List GoAny) (hx : s.discords = x :: xs)
    (hc : IsOpenAsarInstalled core s = Except.ok (b, s₁))
    (hg : openAsarGo core s = Except.ok s₂) :
    ∃ p, x = GoAny.installPtr p ∧
      s₂.trace = s.trace ++ [Event.isOpenAsar p,
        if b then Event.uninstallOpenAsar p else Event.installOpenAsar p] := by
  have hc' := hc
  rw [IsOpenAsarInstalled_cons core s x xs hx] at hc'
  obtain ⟨p, hp, -, h1⟩ := forwarded_of_ok s x core.IsOpenAsar Event.isOpenAsar (b, s₁) hc'
  have h1' : s₁ = s.after (Event.isOpenAsar p) s₁.world := h1
  have hx₁ : s₁.discords = x :: xs := by rw [h1']; exact hx
  have ht₁ : s₁.trace = s.trace ++ [Event.isOpenAsar p] := by rw [h1']; rfl
  refine ⟨p, hp, ?_⟩
  rw [openAsarGo_of_check core s s₁ b hc] at hg
  obtain ⟨r, hr, hrs⟩ := ok_of_map_ok _ _ _ hg
  rw [← hrs, reportError_trace]
  cases b with
  | true =>
    simp only [if_true] at hr ⊢
    rw [UninstallOpenAsar_cons core s₁ x xs hx₁] at hr
    obtain ⟨q, hq, -, h2⟩ :=
      forwarded_of_ok s₁ x core.UninstallOpenAsar Event.uninstallOpenAsar r hr
    have hpq : p = q := by rw [hp] at hq; cases hq; rfl
    subst hpq
    have := congrArg GuiState.trace h2
    rw [this]
    show s₁.trace ++ [Event.uninstallOpenAsar p] = _
    rw [ht₁]; simp
  | false =>
    simp only [Bool.false_eq_true, if_false] at hr ⊢
    rw [InstallOpenAsar_cons core s₁ x xs hx₁] at hr
    obtain ⟨q, hq, -, h2⟩ :=
      forwarded_of_ok s₁ x core.InstallOpenAsar Event.installOpenAsar r hr
    have hpq : p = q := by rw [hp] at hq; cases hq; rfl
    subst hpq
    have := congrArg GuiState.trace h2
    rw [this]
    show s₁.trace ++ [Event.installOpenAsar p] = _
    rw [ht₁]; simp

/-! ## C10: the toggle acts in the direction of its label -/

/-- C10. With a non-empty installation list and `IsOpenAsarInstalled()`
returning `b`: the button text is "Uninstall OpenAsar" when `b` is true and
"Install OpenAsar" when it is false; the click handler runs `UninstallOpenAsar`
when `b` is true and `InstallOpenAsar` when it is false, and a click that
completes has made, after the check, exactly one call, `UninstallOpenAsar` of
`discords[0]` when `b` is true and `InstallOpenAsar` of it otherwise. With an
empty list the text is "Install OpenAsar" and the click makes no call and
shows "Invalid installation location". -/
theorem openasar_toggle_direction (core : Core W) (s : GuiState W) :
    (s.discords = [] →
      openAsarLabel core s = Except.ok ("Install OpenAsar", s) ∧
      openAsarClick core s
        = Except.ok (showErrorModal "Invalid installation location" s) ∧
      (showErrorModal "Invalid installation location" s).trace = s.trace) ∧
    (s.discords ≠ [] → ∀ b s₁, IsOpenAsarInstalled core s = Except.ok (b, s₁) →
      openAsarLabel core s
        = Except.ok (if b then "Uninstall OpenAsar" else "Install OpenAsar", s₁) ∧
      (∀ text s', openAsarLabel core s = Except.ok (text, s') →
        (text = "Uninstall OpenAsar" ↔ b = true) ∧ (text = "Install OpenAsar" ↔ b = false)) ∧
      openAsarClick core s
        = (if b then UninstallOpenAsar core s₁ else InstallOpenAsar core s₁).map reportError ∧
      (∀ s₂, openAsarClick core s = Except.ok s₂ →
        ∃ p, s.discords.head? = some (GoAny.installPtr p) ∧
          s₂.trace = s.trace ++ [Event.isOpenAsar p,
            if b then Event.uninstallOpenAsar p else Event.installOpenAsar p])) := by
  constructor
  · intro h
    refine ⟨?_, ?_, rfl⟩
    · rw [openAsarLabel_of_check core s s false (IsOpenAsarInstalled_nil core s h)]
      rfl
    · simp [openAsarClick, (IsValidInstallLocation_eq_false s).2 h]
  · intro h b s₁ hc
    have hv := (IsValidInstallLocation_eq_true s).2 h
    obtain ⟨x, xs, hx⟩ := List.exists_cons_of_ne_nil h
    refine ⟨openAsarLabel_of_check core s s₁ b hc, ?_, ?_, ?_⟩
    · intro text s' hl
      rw [openAsarLabel_of_check core s s₁ b hc] at hl
      cases hl
      cases b <;> decide
    · rw [openAsarClick_valid core s hv, openAsarGo_of_check core s s₁ b hc]
    · intro s₂ hs₂
      rw [openAsarClick_valid core s hv] at hs₂
      obtain ⟨p, hp, ht⟩ := openAsarGo_trace core s s₁ s₂ b x xs hx hc hs₂
      exact ⟨p, by simp [hx, hp], ht⟩

/-- Witness of C10: with the shim installed (odd counter) the button reads
"Uninstall OpenAsar"; with an empty list it reads "Install OpenAsar". -/
theorem openasar_toggle_direction_witness :
    openAsarLabel sampleCore (sampleState (installs [sampleStable]) 1)
      = Except.ok ("Uninstall OpenAsar",
          (sampleState (installs [sampleStable]) 1).after
            (Event.isOpenAsar (some sampleStable)) 1) ∧
    openAsarLabel sampleCore (sampleState [] 1)
      = Except.ok ("Install OpenAsar", sampleState [] 1) :=
  ⟨((openasar_toggle_direction sampleCore (sampleState (installs [sampleStable]) 1)).2
      (by decide) true
      ((sampleState (installs [sampleStable]) 1).after
        (Event.isOpenAsar (some sampleStable)) 1) rfl).1,
   ((openasar_toggle_direction sampleCore (sampleState [] 1)).1 rfl).1⟩

/-! ## C5: the table of Linux install-root names -/

/-- C5. For every channel suffix (none, PTB, Canary, Development)
`LinuxDiscordNames` contains `Discord` followed by the suffix, the lower-case
form of that name and the Flatpak name `com.discordapp.Discord` followed by
the suffix; for every suffix but the empty one it contains `discord-` followed
by the lower-case suffix; every entry of the table is one of these names; and
the table has 15 entries, no two equal. -/
theorem linux_names_cover_channels :
    (∀ suffix ∈ channelSuffixes,
      "Discord" ++ suffix ∈ LinuxDiscordNames ∧
      lowercase ("Discord" ++ suffix) ∈ LinuxDiscordNames ∧
      "com.discordapp.Discord" ++ suffix ∈ LinuxDiscordNames) ∧
    (∀ suffix ∈ channelSuffixes, suffix ≠ "" →
      "discord-" ++ lowercase suffix ∈ LinuxDiscordNames) ∧
    (∀ name ∈ LinuxDiscordNames, ∃ suffix ∈ channelSuffixes, name ∈ variantsOf suffix) ∧
    LinuxDiscordNames.length = 15 ∧
    LinuxDiscordNames.Nodup := by
  refine ⟨by decide, by decide, by decide, by decide, by decide⟩

/-- Witness of C5 at the canary channel: the hyphenated name is in the table. -/
theorem linux_names_cover_channels_witness : "discord-canary" ∈ LinuxDiscordNames :=
  linux_names_cover_channels.2.1 "Canary" (by decide) (by decide)

/-! ## C7: patch followed by unpatch -/

theorem stage_has_injected (cfg : PatchConfig) (a : Archive) (artifact : List Nat) :
    (stage cfg a artifact).any (fun e => e.name == cfg.injectedName) = true := by
  simp [stage, List.any_append]

theorem stage_stage (cfg : PatchConfig) (a : Archive) (first second : List Nat) :
    stage cfg (stage cfg a first) second = stage cfg a second := by
  simp [stage, List.filter_append, List.filter_filter]

theorem patchState_eq_unpatched (cfg : PatchConfig) (inst : Installation)
    (h : inst.archive.any (fun e => e.name == cfg.injectedName) = false) :
    patchState cfg inst = PatchState.Unpatched := by
  simp [patchState, h]

theorem patchState_eq_patched (cfg : PatchConfig) (inst : Installation)
    (h : inst.archive.any (fun e => e.name == cfg.injectedName) = true) :
    patchState cfg inst = PatchState.Patched := by
  simp only [patchState, h, if_true]

theorem patchState_unpatched_iff (cfg : PatchConfig) (inst : Installation) :
    patchState cfg inst = PatchState.Unpatched ↔
      inst.archive.any (fun e => e.name == cfg.injectedName) = false := by
  constructor
  · intro h
    cases ha : inst.archive.any (fun e => e.name == cfg.injectedName) with
    | false => rfl
    | true => rw [patchState_eq_patched cfg inst ha] at h; cases h
  · exact patchState_eq_unpatched cfg inst

/-- The result of `patch`: always a success, Patched, with a backup whenever
the installation was valid. -/
theorem patch_ok (cfg : PatchConfig) (inst : Installation) (artifact : List Nat) :
    ∃ patched, patch cfg inst artifact = Except.ok patched ∧
      patchState cfg patched = PatchState.Patched ∧
      patched.backup = (match patchState cfg inst with
        | PatchState.Unpatched => some inst.archive
        | PatchState.Patched => inst.backup) := by
  cases h : patchState cfg inst with
  | Unpatched =>
    refine ⟨{ inst with backup := some inst.archive,
                        archive := inject cfg inst.archive artifact }, ?_, ?_, rfl⟩
    · simp [patch, h]
    · exact patchState_eq_patched cfg _ (stage_has_injected cfg _ artifact)
  | Patched =>
    refine ⟨{ inst with archive := stage cfg inst.archive artifact }, ?_, ?_, rfl⟩
    · simp [patch, h]
    · exact patchState_eq_patched cfg _ (stage_has_injected cfg _ artifact)

/-- Section 8, Idempotence: a second `patch` with the same artifact leaves
the installation as the first left it. -/
theorem patch_twice (cfg : PatchConfig) (inst patched : Installation) (artifact : List Nat)
    (h : patch cfg inst artifact = Except.ok patched) :
    patch cfg patched artifact = Except.ok patched := by
  have hp : patchState cfg patched = PatchState.Patched := by
    obtain ⟨q, hq, hs, -⟩ := patch_ok cfg inst artifact
    rw [h] at hq; cases hq; exact hs
  have hstage : stage cfg patched.archive artifact = patched.archive := by
    cases hi : patchState cfg inst with
    | Unpatched =>
      simp only [patch, hi] at h
      cases h
      exact stage_stage cfg _ artifact artifact
    | Patched =>
      simp only [patch, hi] at h
      cases h
      exact stage_stage cfg _ artifact artifact
  simp only [patch, hp, hstage]

/-- C7. For every valid installation and every artifact, `patch` succeeds and
leaves the installation Patched, `unpatch` of the result succeeds, and the
archive it leaves is byte-identical to the pre-patch state of the archive:
the archive itself when the installation was Unpatched, and the preserved
original (pre-patch) archive when `patch` was a repair of a Patched
installation. The backup is removed. -/
theorem unpatch_patch_roundtrip (cfg : PatchConfig) (inst : Installation)
    (artifact : List Nat) (hvalid : validInstallation cfg inst = true) :
    ∃ patched restored,
      patch cfg inst artifact = Except.ok patched ∧
      patchState cfg patched = PatchState.Patched ∧
      unpatch cfg patched = Except.ok restored ∧
      some restored.archive = prePatchArchive cfg inst ∧
      (patchState cfg inst = PatchState.Unpatched → restored.archive = inst.archive) ∧
      restored.backup = none := by
  obtain ⟨patched, hpatch, hstate, hbackup⟩ := patch_ok cfg inst artifact
  cases hs : patchState cfg inst with
  | Unpatched =>
    rw [hs] at hbackup
    have hb : patched.backup = some inst.archive := hbackup
    refine ⟨patched, { patched with archive := inst.archive, backup := none },
      hpatch, hstate, ?_, ?_, fun _ => rfl, rfl⟩
    · simp [unpatch, hb]
    · simp [prePatchArchive, hs]
  | Patched =>
    rw [hs] at hbackup
    have hb : patched.backup = inst.backup := hbackup
    have hsome : inst.backup.isSome = true := by
      simpa [validInstallation, hs] using hvalid
    obtain ⟨original, horig⟩ := Option.isSome_iff_exists.1 hsome
    refine ⟨patched, { patched with archive := original, backup := none },
      hpatch, hstate, ?_, ?_, (fun h => by cases h), rfl⟩
    · simp [unpatch, hb, horig]
    · simp [prePatchArchive, hs, horig]

/-- Witness of C7 on the Unpatched sample installation: the archive is back
to its one original entry. -/
theorem unpatch_patch_roundtrip_witness :
    ∃ patched restored,
      patch sampleConfig sampleUnpatched [5] = Except.ok patched ∧
      patchState sampleConfig patched = PatchState.Patched ∧
      unpatch sampleConfig patched = Except.ok restored ∧
      some restored.archive = prePatchArchive sampleConfig sampleUnpatched ∧
      (patchState sampleConfig sampleUnpatched = PatchState.Unpatched →
        restored.archive = sampleUnpatched.archive) ∧
      restored.backup = none :=
  unpatch_patch_roundtrip sampleConfig sampleUnpatched [5] rfl

end Installer
